import Mathlib

/-!
Shallow embedding of the wage_engine payroll service (Rust crate under
src/wage_engine) and verification of its specification claims.

Modelling conventions:
- f64 amounts are modelled as rationals; the engine performs only field
  arithmetic, so the numeric claims are exact statements here.
- serde_json::Value is modelled by the inductive type Json below; objects
  are ordered field lists and Value::get is first-match lookup.
- HashMap registries are modelled as lookup functions String → Option α,
  which is exactly the interface run_payroll consumes.
- rayon into_par_iter().map().collect() over a Vec preserves input order,
  so it is modelled as List.map.
- str::to_lowercase is modelled character-wise; the engine only ever
  compares against the ASCII literal "hours", where the two coincide.
-/

namespace Wage

/-- JSON-style open documents, mirroring the serde_json value type used for
tax-law rule payloads and result details. Numbers are rationals. -/
inductive Json where
  | null : Json
  | bool : Bool → Json
  | num : ℚ → Json
  | str : String → Json
  | arr : List Json → Json
  | obj : List (String × Json) → Json

/-- Field lookup on a JSON document, mirroring serde_json Value::get on an
object (None on every non-object). -/
def Json.get (v : Json) (key : String) : Option Json :=
  match v with
  | .obj fields => (fields.find? (fun p => p.1 == key)).map (fun p => p.2)
  | _ => none

/-- Numeric view of a JSON value, mirroring serde_json Value::as_f64. -/
def Json.as_f64 (v : Json) : Option ℚ :=
  match v with
  | .num q => some q
  | _ => none

/-- Character-wise lowercasing modelling str::to_lowercase (models.rs
comparisons only involve the ASCII literal "hours"). -/
def to_lowercase (s : String) : String :=
  ⟨s.data.map Char.toLower⟩

/-- models.rs PayFrequency. -/
inductive PayFrequency where
  | Hourly : PayFrequency
  | Salary : PayFrequency

/-- models.rs Employee. -/
structure Employee where
  id : String
  name : String
  home_region : String
  pay_rate : ℚ
  pay_frequency : PayFrequency

/-- models.rs PayItem. -/
structure PayItem where
  description : String
  amount : ℚ

/-- models.rs PayPeriod; the source field named end is spelled end_ here
because end is a Lean keyword. -/
structure PayPeriod where
  start : String
  end_ : String

/-- models.rs PayRunInput; the pay_items HashMap is modelled by its lookup
function. -/
structure PayRunInput where
  employees : List Employee
  pay_items : String → Option (List PayItem)
  pay_period : PayPeriod

/-- tax.rs TaxLaw. -/
structure TaxLaw where
  region : String
  version : String
  rules : Json

/-- tax.rs TaxCalculator trait objects, modelled as a record of the two
trait methods. -/
structure TaxCalculator where
  region_code : String
  calculate : Employee → ℚ → TaxLaw → ℚ

/-- models.rs EmployeePayResult. -/
structure EmployeePayResult where
  employee : Employee
  gross : ℚ
  taxes : ℚ
  net : ℚ
  details : Json

/-- models.rs PayRunResult. -/
structure PayRunResult where
  period : PayPeriod
  results : List EmployeePayResult

/-- tax.rs UsFederalCalculator: flat rate read from rules.rate, default 0. -/
def UsFederalCalculator : TaxCalculator where
  region_code := "US-FED"
  calculate := fun _ gross law =>
    gross * (((law.rules.get "rate").bind Json.as_f64).getD 0)

/-- tax.rs FlatStateCalculator: same flat-rate rule, parameterized by the
region code it is registered for. -/
def FlatStateCalculator (region : String) : TaxCalculator where
  region_code := region
  calculate := fun _ gross law =>
    gross * (((law.rules.get "rate").bind Json.as_f64).getD 0)

/-- Per-employee computation of engine.rs run_payroll: the body of the
parallel map closure, verbatim. -/
def payEmployee (pay_items : String → Option (List PayItem))
    (tax_laws : String → Option TaxLaw)
    (calculators : String → Option TaxCalculator)
    (employee : Employee) : EmployeePayResult :=
  let base_gross : ℚ :=
    match employee.pay_frequency with
    | .Hourly =>
        let hours : ℚ :=
          (((pay_items employee.id).bind
              (fun items =>
                items.find? (fun i => to_lowercase i.description == "hours"))).map
            (fun item => item.amount)).getD 0
        employee.pay_rate * hours
    | .Salary => employee.pay_rate
  let extra : ℚ :=
    ((pay_items employee.id).map
        (fun items =>
          ((items.filter (fun i => to_lowercase i.description != "hours")).map
              (fun i => i.amount)).sum)).getD 0
  let gross := base_gross + extra
  let law : Option TaxLaw :=
    match tax_laws employee.home_region with
    | some l => some l
    | none => tax_laws "US-FED"
  let calculator : Option TaxCalculator :=
    match calculators employee.home_region with
    | some c => some c
    | none => calculators "US-FED"
  let taxes : ℚ :=
    match law, calculator with
    | some l, some c => c.calculate employee gross l
    | _, _ => 0
  let net := gross - taxes
  let details : Json :=
    match law with
    | some l => Json.obj [("tax_region", Json.str l.region), ("tax_version", Json.str l.version)]
    | none => Json.obj []
  { employee := employee, gross := gross, taxes := taxes, net := net, details := details }

/-- engine.rs run_payroll: maps the per-employee computation over the
employees in input order and always returns Ok. -/
def run_payroll (input : PayRunInput) (tax_laws : String → Option TaxLaw)
    (calculators : String → Option TaxCalculator) : Except String PayRunResult :=
  let period := input.pay_period
  let pay_items := input.pay_items
  let results : List EmployeePayResult :=
    input.employees.map (payEmployee pay_items tax_laws calculators)
  Except.ok { period := period, results := results }

/-- One directory entry as observed by tax.rs load_tax_laws_from_dir:
whether it is a regular file, whether its path carries the json extension,
and the outcome of std::fs::read_to_string on it (error = I/O failure).
The entry and file_type accessors themselves are taken to succeed. -/
structure DirEntry where
  is_file : Bool
  has_json_ext : Bool
  read : Except String String

/-- Loop of load_tax_laws_from_dir over the directory entries, threading
the accumulated laws vector; parse stands for serde_json::from_str into
TaxLaw. A read error propagates (the source applies the question-mark
operator to read_to_string); a parse error only logs and skips. -/
def load_loop (parse : String → Except String TaxLaw) :
    List DirEntry → List TaxLaw → Except String (List TaxLaw)
  | [], acc => Except.ok acc.reverse
  | e :: es, acc =>
    if e.is_file then
      if e.has_json_ext then
        match e.read with
        | .error err => .error err
        | .ok data =>
          match parse data with
          | .ok law => load_loop parse es (law :: acc)
          | .error _ => load_loop parse es acc
      else load_loop parse es acc
    else load_loop parse es acc

/-- tax.rs load_tax_laws_from_dir, with the directory presented as its
entry list and JSON parsing abstracted as the parse argument. -/
def load_tax_laws_from_dir (is_dir : Bool) (entries : List DirEntry)
    (parse : String → Except String TaxLaw) : Except String (List TaxLaw) :=
  if is_dir then load_loop parse entries [] else Except.ok []

/-- Base gross as worded in the specification: for Hourly, pay_rate times
the amount of the first item whose description case-insensitively equals
hours (pay_rate times 0 if none); for Salary, pay_rate. -/
def specBaseGross (e : Employee) (items : List PayItem) : ℚ :=
  match e.pay_frequency with
  | .Hourly =>
      match items.find? (fun i => to_lowercase i.description == "hours") with
      | some item => e.pay_rate * item.amount
      | none => e.pay_rate * 0
  | .Salary => e.pay_rate

/-- Extra adjustments as worded in the specification: the sum of the
amounts of every item whose description does not case-insensitively equal
hours. -/
def specExtra (items : List PayItem) : ℚ :=
  ((items.filter (fun i => !(to_lowercase i.description == "hours"))).map
      (fun i => i.amount)).sum

/-- Numeric value of law.rules.rate as worded in the specification; 0 when
the field is absent or not a number. -/
def specRate (law : TaxLaw) : ℚ :=
  match law.rules.get "rate" with
  | some (Json.num q) => q
  | _ => 0

/-- Keeps the first pay item whose description lowercases to hours and
drops every later such item, leaving all other items in place. -/
def discardLaterHours : List PayItem → List PayItem
  | [] => []
  | i :: rest =>
    if to_lowercase i.description == "hours" then
      i :: rest.filter (fun j => to_lowercase j.description != "hours")
    else
      i :: discardLaterHours rest

/-- run_payroll unfolded: it always returns Ok with the period echoed and
one payEmployee row per input employee, in input order. -/
theorem run_payroll_ok (input : PayRunInput) (tax_laws : String → Option TaxLaw)
    (calculators : String → Option TaxCalculator) :
    run_payroll input tax_laws calculators =
      Except.ok { period := input.pay_period
                  , results := input.employees.map (payEmployee input.pay_items tax_laws calculators) } :=
  rfl

/-- The gross produced by the per-employee computation agrees with the
specification's base-gross plus extra-adjustments decomposition. -/
theorem payEmployee_gross_spec (pi : String → Option (List PayItem))
    (laws : String → Option TaxLaw) (calcs : String → Option TaxCalculator)
    (e : Employee) :
    (payEmployee pi laws calcs e).gross =
      specBaseGross e ((pi e.id).getD []) + specExtra ((pi e.id).getD []) := by
  cases ho : pi e.id with
  | none =>
    cases hf : e.pay_frequency <;>
      simp [payEmployee, ho, hf, specBaseGross, specExtra]
  | some items =>
    cases hf : e.pay_frequency with
    | Hourly =>
      cases hfind : items.find? (fun i => to_lowercase i.description == "hours") <;>
        simp [payEmployee, ho, hf, hfind, specBaseGross, specExtra, bne]
    | Salary =>
      simp [payEmployee, ho, hf, specBaseGross, specExtra, bne]

/-- Claim C4: every result row of run_payroll satisfies net = gross minus
taxes, for every input and every pair of registries (exact equality in the
rational model). -/
theorem c4_net_eq_gross_sub_taxes (input : PayRunInput)
    (tax_laws : String → Option TaxLaw) (calculators : String → Option TaxCalculator)
    (r : PayRunResult) (h : run_payroll input tax_laws calculators = Except.ok r) :
    r.results.map (fun row => row.net) =
      r.results.map (fun row => row.gross - row.taxes) := by
  rw [run_payroll_ok] at h
  injection h with h2
  subst h2
  dsimp only
  rw [List.map_map, List.map_map]
  exact List.map_congr_left (fun e he => rfl)

/-- Concrete instantiation of c4_net_eq_gross_sub_taxes. -/
def c4_input : PayRunInput where
  employees := [{ id := "1", name := "A", home_region := "US-OK", pay_rate := 100, pay_frequency := .Salary }]
  pay_items := fun _ => none
  pay_period := { start := "2025-01-01", end_ := "2025-01-15" }

/-- Result of run_payroll on c4_input with empty registries. -/
def c4_result : PayRunResult where
  period := { start := "2025-01-01", end_ := "2025-01-15" }
  results := [{ employee := { id := "1", name := "A", home_region := "US-OK", pay_rate := 100, pay_frequency := .Salary }
                , gross := 100, taxes := 0, net := 100, details := Json.obj [] }]

/-- Witness for c4_net_eq_gross_sub_taxes at a concrete input. -/
theorem c4_net_eq_gross_sub_taxes_witness :
    c4_result.results.map (fun row => row.net) =
      c4_result.results.map (fun row => row.gross - row.taxes) :=
  c4_net_eq_gross_sub_taxes c4_input (fun _ => none) (fun _ => none) c4_result
    (by simp +decide only [run_payroll, payEmployee, c4_input, c4_result, List.map]
        norm_num)

/-- Claim C5: run_payroll returns exactly one row per input employee, the
rows appear in request order, and the i-th row carries the i-th employee's
id; no employee is dropped. -/
theorem c5_one_row_per_employee (input : PayRunInput)
    (tax_laws : String → Option TaxLaw) (calculators : String → Option TaxCalculator)
    (r : PayRunResult) (h : run_payroll input tax_laws calculators = Except.ok r) :
    r.results.length = input.employees.length ∧
      r.results.map (fun row => row.employee.id) =
        input.employees.map (fun e => e.id) := by
  rw [run_payroll_ok] at h
  injection h with h2
  subst h2
  refine ⟨by simp, ?_⟩
  rw [List.map_map]
  rfl

/-- Concrete instantiation of c5_one_row_per_employee. -/
def c5_input : PayRunInput where
  employees := [{ id := "a", name := "A", home_region := "R1", pay_rate := 10, pay_frequency := .Salary }
                , { id := "b", name := "B", home_region := "R2", pay_rate := 20, pay_frequency := .Salary }]
  pay_items := fun _ => none
  pay_period := { start := "2025-02-01", end_ := "2025-02-15" }

/-- Result of run_payroll on c5_input with empty registries. -/
def c5_result : PayRunResult where
  period := { start := "2025-02-01", end_ := "2025-02-15" }
  results := [{ employee := { id := "a", name := "A", home_region := "R1", pay_rate := 10, pay_frequency := .Salary }
                , gross := 10, taxes := 0, net := 10, details := Json.obj [] }
              , { employee := { id := "b", name := "B", home_region := "R2", pay_rate := 20, pay_frequency := .Salary }
                , gross := 20, taxes := 0, net := 20, details := Json.obj [] }]

/-- Witness for c5_one_row_per_employee at a concrete input. -/
theorem c5_one_row_per_employee_witness :
    c5_result.results.length = c5_input.employees.length ∧
      c5_result.results.map (fun row => row.employee.id) =
        c5_input.employees.map (fun e => e.id) :=
  c5_one_row_per_employee c5_input (fun _ => none) (fun _ => none) c5_result
    (by simp +decide only [run_payroll, payEmployee, c5_input, c5_result, List.map]
        norm_num)

/-- Claim C2: every result row's gross equals the specification's base
gross (hourly: pay_rate times the first case-insensitive hours item, or
times 0 if none; salary: pay_rate) plus the sum of all non-hours item
amounts, with the items drawn from the employee's pay_items entry or the
empty sequence. -/
theorem c2_gross_decomposition (input : PayRunInput)
    (tax_laws : String → Option TaxLaw) (calculators : String → Option TaxCalculator)
    (r : PayRunResult) (h : run_payroll input tax_laws calculators = Except.ok r) :
    r.results.map (fun row => row.gross) =
      input.employees.map (fun e =>
        specBaseGross e ((input.pay_items e.id).getD []) +
          specExtra ((input.pay_items e.id).getD [])) := by
  rw [run_payroll_ok] at h
  injection h with h2
  subst h2
  dsimp only
  rw [List.map_map]
  exact List.map_congr_left (fun e he => payEmployee_gross_spec input.pay_items tax_laws calculators e)

/-- Concrete instantiation of c2_gross_decomposition: an hourly employee
with an hours item and a bonus item. -/
def c2_input : PayRunInput where
  employees := [{ id := "2", name := "B", home_region := "US-OK", pay_rate := 20, pay_frequency := .Hourly }]
  pay_items := fun k => if k = "2" then some [{ description := "Hours", amount := 40 }
                                              , { description := "bonus", amount := 50 }] else none
  pay_period := { start := "2025-03-01", end_ := "2025-03-15" }

/-- Result of run_payroll on c2_input with empty registries. -/
def c2_result : PayRunResult where
  period := { start := "2025-03-01", end_ := "2025-03-15" }
  results := [{ employee := { id := "2", name := "B", home_region := "US-OK", pay_rate := 20, pay_frequency := .Hourly }
                , gross := 850, taxes := 0, net := 850, details := Json.obj [] }]

/-- Witness for c2_gross_decomposition at a concrete input. -/
theorem c2_gross_decomposition_witness :
    c2_result.results.map (fun row => row.gross) =
      c2_input.employees.map (fun e =>
        specBaseGross e ((c2_input.pay_items e.id).getD []) +
          specExtra ((c2_input.pay_items e.id).getD [])) :=
  c2_gross_decomposition c2_input (fun _ => none) (fun _ => none) c2_result
    (by have hfind : (List.find? (fun i => to_lowercase i.description == "hours")
            ([{ description := "Hours", amount := 40 }, { description := "bonus", amount := 50 }] : List PayItem)) =
            some { description := "Hours", amount := (40 : ℚ) } := by
          rw [List.find?_cons_of_pos _ (by decide)]
        have hfilter : (List.filter (fun i => to_lowercase i.description != "hours")
            ([{ description := "Hours", amount := 40 }, { description := "bonus", amount := 50 }] : List PayItem)) =
            [{ description := "bonus", amount := (50 : ℚ) }] := by
          rw [List.filter_cons_of_neg (by decide), List.filter_cons_of_pos (by decide), List.filter_nil]
        simp +decide [run_payroll, payEmployee, c2_input, c2_result, hfind, hfilter]
        norm_num)

/-- Claim C6: with both registries empty, run_payroll still returns Ok and
every row has zero taxes, net equal to gross, and an empty details
document. -/
theorem c6_empty_registries_zero_fallback (input : PayRunInput) :
    ∃ r, run_payroll input (fun _ => none) (fun _ => none) = Except.ok r ∧
      r.results.map (fun row => row.taxes) = input.employees.map (fun _ => (0 : ℚ)) ∧
      r.results.map (fun row => row.net) = r.results.map (fun row => row.gross) ∧
      r.results.map (fun row => row.details) = input.employees.map (fun _ => Json.obj []) := by
  refine ⟨_, run_payroll_ok input (fun _ => none) (fun _ => none), ?_, ?_, ?_⟩
  · dsimp only
    rw [List.map_map]
    exact List.map_congr_left (fun e he => rfl)
  · dsimp only
    rw [List.map_map, List.map_map]
    refine List.map_congr_left (fun e he => ?_)
    simp [payEmployee]
  · dsimp only
    rw [List.map_map]
    exact List.map_congr_left (fun e he => rfl)

/-- Claim C9: the two built-in calculators ignore every employee
attribute: swapping the employee never changes the computed tax. -/
theorem c9_calculators_ignore_employee (g : ℚ) (law : TaxLaw)
    (e1 e2 : Employee) (region : String) :
    UsFederalCalculator.calculate e1 g law = UsFederalCalculator.calculate e2 g law ∧
      (FlatStateCalculator region).calculate e1 g law =
        (FlatStateCalculator region).calculate e2 g law :=
  ⟨rfl, rfl⟩

/-- Claim C7: both built-in calculators return gross times the numeric
value of law.rules.rate, return 0 when that field is absent or not a
number, and agree on every input. -/
theorem c7_flat_rate_calculators (e : Employee) (g : ℚ) (law : TaxLaw) (region : String) :
    UsFederalCalculator.calculate e g law = g * specRate law ∧
      (FlatStateCalculator region).calculate e g law = g * specRate law ∧
      ((∀ q : ℚ, law.rules.get "rate" ≠ some (Json.num q)) →
        UsFederalCalculator.calculate e g law = 0 ∧
          (FlatStateCalculator region).calculate e g law = 0) ∧
      UsFederalCalculator.calculate e g law = (FlatStateCalculator region).calculate e g law := by
  have hrate : ((law.rules.get "rate").bind Json.as_f64).getD 0 = specRate law := by
    cases hg : law.rules.get "rate" with
    | none => simp [specRate, hg]
    | some v => cases v <;> simp [specRate, hg, Json.as_f64]
  have habs : (∀ q : ℚ, law.rules.get "rate" ≠ some (Json.num q)) → specRate law = 0 := by
    intro hq
    cases hg : law.rules.get "rate" with
    | none => simp [specRate, hg]
    | some v =>
      cases v with
      | num q => exact absurd hg (hq q)
      | null => simp [specRate, hg]
      | bool b => simp [specRate, hg]
      | str s => simp [specRate, hg]
      | arr xs => simp [specRate, hg]
      | obj fields => simp [specRate, hg]
  refine ⟨?_, ?_, ?_, rfl⟩
  · simp [UsFederalCalculator, hrate]
  · simp [FlatStateCalculator, hrate]
  · intro hq
    constructor
    · simp [UsFederalCalculator, hrate, habs hq]
    · simp [FlatStateCalculator, hrate, habs hq]

/-- Tax law without a rate field, for the c7 witness. -/
def c7_law : TaxLaw where
  region := "US-ZZ"
  version := "2025"
  rules := Json.obj [("note", Json.str "no rate here")]

/-- Employee record for the c7 witness. -/
def c7_emp : Employee where
  id := "7"
  name := "G"
  home_region := "US-ZZ"
  pay_rate := 500
  pay_frequency := .Salary

/-- Witness for c7_flat_rate_calculators: on a law without a numeric rate
both calculators return 0. -/
theorem c7_flat_rate_calculators_witness :
    UsFederalCalculator.calculate c7_emp 700 c7_law = 0 ∧
      (FlatStateCalculator "US-OK").calculate c7_emp 700 c7_law = 0 :=
  (c7_flat_rate_calculators c7_emp 700 c7_law "US-OK").2.2.1
    (by intro q
        simp +decide [c7_law, Json.get, List.find?])

/-- Filtering twice with the same predicate equals filtering once. -/
theorem filter_idem_aux {α : Type} (p : α → Bool) (l : List α) :
    (l.filter p).filter p = l.filter p := by
  induction l with
  | nil => rfl
  | cons a l ih =>
    cases hp : p a with
    | true => rw [List.filter_cons_of_pos hp, List.filter_cons_of_pos hp, ih]
    | false => rw [List.filter_cons_of_neg (by simp [hp]), ih]

/-- Dropping the hours items after the first does not change which item
the engine's hours search finds. -/
theorem discard_find (items : List PayItem) :
    (discardLaterHours items).find? (fun i => to_lowercase i.description == "hours") =
      items.find? (fun i => to_lowercase i.description == "hours") := by
  induction items with
  | nil => rfl
  | cons i rest ih =>
    cases hp : to_lowercase i.description == "hours" with
    | true => simp [discardLaterHours, hp, List.find?_cons_of_pos _ hp]
    | false => simp [discardLaterHours, hp, List.find?_cons, ih]

/-- Dropping the hours items after the first does not change the engine's
non-hours filtering. -/
theorem discard_filter (items : List PayItem) :
    (discardLaterHours items).filter (fun i => to_lowercase i.description != "hours") =
      items.filter (fun i => to_lowercase i.description != "hours") := by
  simp only [bne]
  induction items with
  | nil => rfl
  | cons i rest ih =>
    cases hp : to_lowercase i.description == "hours" with
    | true => simp [discardLaterHours, hp, bne, filter_idem_aux, List.filter_cons]
    | false => simp [discardLaterHours, hp, bne, List.filter_cons, ih]

/-- Hourly employee for the c3 concrete scenario. -/
def c3_emp : Employee where
  id := "3"
  name := "C"
  home_region := "US-OK"
  pay_rate := 10
  pay_frequency := .Hourly

/-- Pay items with a duplicated hours entry for the c3 concrete scenario. -/
def c3_items : List PayItem :=
  [{ description := "hours", amount := 10 }
   , { description := "hours", amount := 5 }
   , { description := "Tips", amount := 20 }]

/-- Request for the c3 concrete scenario. -/
def c3_input : PayRunInput where
  employees := [c3_emp]
  pay_items := fun k => if k = "3" then some c3_items else none
  pay_period := { start := "2025-04-01", end_ := "2025-04-15" }

/-- Claim C3: for an Hourly employee only the first hours item contributes
to base gross and later hours items are not summed into extra: replacing
the item list by the one with later hours items discarded leaves the whole
result row unchanged; concretely, items hours 10, hours 5, Tips 20 at rate
10 give base 100, extra 20 and gross 120. -/
theorem c3_later_hours_items_dropped :
    (∀ (pi : String → Option (List PayItem)) (laws : String → Option TaxLaw)
        (calcs : String → Option TaxCalculator) (e : Employee) (items : List PayItem),
        e.pay_frequency = PayFrequency.Hourly →
          payEmployee (fun k => if k = e.id then some items else pi k) laws calcs e =
            payEmployee (fun k => if k = e.id then some (discardLaterHours items) else pi k) laws calcs e) ∧
      specBaseGross c3_emp c3_items = 100 ∧ specExtra c3_items = 20 ∧
      run_payroll c3_input (fun _ => none) (fun _ => none) =
        Except.ok { period := { start := "2025-04-01", end_ := "2025-04-15" }
                    , results := [{ employee := c3_emp, gross := 120, taxes := 0, net := 120
                                    , details := Json.obj [] }] } := by
  have hfind : c3_items.find? (fun i => to_lowercase i.description == "hours") =
      some { description := "hours", amount := (10 : ℚ) } := by
    rw [c3_items, List.find?_cons_of_pos _ (by decide)]
  have hfilter : c3_items.filter (fun i => to_lowercase i.description != "hours") =
      [{ description := "Tips", amount := (20 : ℚ) }] := by
    rw [c3_items, List.filter_cons_of_neg (by decide), List.filter_cons_of_neg (by decide),
      List.filter_cons_of_pos (by decide), List.filter_nil]
  have hfilter2 : c3_items.filter (fun i => !(to_lowercase i.description == "hours")) =
      [{ description := "Tips", amount := (20 : ℚ) }] := by
    rw [c3_items, List.filter_cons_of_neg (by decide), List.filter_cons_of_neg (by decide),
      List.filter_cons_of_pos (by decide), List.filter_nil]
  refine ⟨?_, ?_, ?_, ?_⟩
  · intro pi laws calcs e items hfreq
    simp only [payEmployee, hfreq]
    simp [discard_find, discard_filter]
  · simp [specBaseGross, c3_emp, hfind]
    norm_num
  · simp [specExtra, hfilter2]
  · simp +decide [run_payroll, payEmployee, c3_input, c3_emp, hfind, hfilter]
    norm_num

/-- Tax law of end-to-end scenario 1, with rate one tenth. -/
def c1_law : TaxLaw where
  region := "US-FED"
  version := "2025"
  rules := Json.obj [("rate", Json.num (1 / 10))]

/-- Tax-law registry of scenario 1 keyed by the composite region-version
string, exactly as build_router in api.rs stores it. -/
def c1_laws : String → Option TaxLaw :=
  fun k => if k = "US-FED-2025" then some c1_law else none

/-- The same single law stored under its bare region code instead. -/
def c1_laws_by_region : String → Option TaxLaw :=
  fun k => if k = "US-FED" then some c1_law else none

/-- Calculator registry of scenario 1: the federal calculator under
US-FED. -/
def c1_calcs : String → Option TaxCalculator :=
  fun k => if k = "US-FED" then some UsFederalCalculator else none

/-- Salaried employee of scenario 1. -/
def c1_emp : Employee where
  id := "1"
  name := "A"
  home_region := "US-FED"
  pay_rate := 1000
  pay_frequency := .Salary

/-- Request of scenario 1: one salaried employee, no pay items. -/
def c1_input : PayRunInput where
  employees := [c1_emp]
  pay_items := fun _ => none
  pay_period := { start := "2025-01-01", end_ := "2025-01-15" }

/-- Claim C1 evaluation: with the registry keyed by the composite string
US-FED-2025 (as api.rs builds it), run_payroll finds no law for region
US-FED and returns taxes 0, net 1000 and empty details, not the specified
taxes 100, net 900; storing the same law under the bare region key US-FED
instead does produce the specified output. -/
theorem c1_composite_key_scenario :
    run_payroll c1_input c1_laws c1_calcs =
      Except.ok { period := { start := "2025-01-01", end_ := "2025-01-15" }
                  , results := [{ employee := c1_emp, gross := 1000, taxes := 0, net := 1000
                                  , details := Json.obj [] }] } ∧
      run_payroll c1_input c1_laws_by_region c1_calcs =
        Except.ok { period := { start := "2025-01-01", end_ := "2025-01-15" }
                    , results := [{ employee := c1_emp, gross := 1000, taxes := 100, net := 900
                                    , details := Json.obj [("tax_region", Json.str "US-FED")
                                                           , ("tax_version", Json.str "2025")] }] } := by
  constructor
  · simp +decide only [run_payroll, payEmployee, c1_input, c1_laws, c1_calcs, c1_emp, c1_law,
      UsFederalCalculator, Json.get, Json.as_f64, List.map]
    norm_num
  · simp +decide only [run_payroll, payEmployee, c1_input, c1_laws_by_region, c1_calcs, c1_emp,
      c1_law, UsFederalCalculator, Json.get, Json.as_f64, List.map, List.find?]
    norm_num

/-- Claim C10: run_payroll never deduplicates employees and never fails on
repeated ids: the result list is exactly the per-employee computation
mapped over the request's employee list, each row drawing its items from
the single pay_items entry for its id. -/
theorem c10_duplicate_ids_allowed (input : PayRunInput)
    (tax_laws : String → Option TaxLaw) (calculators : String → Option TaxCalculator)
    (r : PayRunResult) (h : run_payroll input tax_laws calculators = Except.ok r) :
    r.results.length = input.employees.length ∧
      r.results = input.employees.map (payEmployee input.pay_items tax_laws calculators) := by
  rw [run_payroll_ok] at h
  injection h with h2
  subst h2
  exact ⟨by simp, rfl⟩

/-- Request with two employees sharing the id 1 but differing in name,
rate and frequency, plus one pay_items entry under that id. -/
def c10_input : PayRunInput where
  employees := [{ id := "1", name := "A", home_region := "R", pay_rate := 100, pay_frequency := .Salary }
                , { id := "1", name := "Z", home_region := "R", pay_rate := 10, pay_frequency := .Hourly }]
  pay_items := fun k => if k = "1" then some [{ description := "hours", amount := 3 }
                                              , { description := "bonus", amount := 7 }] else none
  pay_period := { start := "2025-05-01", end_ := "2025-05-15" }

/-- Result of run_payroll on c10_input with empty registries: both
occurrences of id 1 get their own row, both drawing from the single
pay_items entry. -/
def c10_result : PayRunResult where
  period := { start := "2025-05-01", end_ := "2025-05-15" }
  results := [{ employee := { id := "1", name := "A", home_region := "R", pay_rate := 100, pay_frequency := .Salary }
                , gross := 107, taxes := 0, net := 107, details := Json.obj [] }
              , { employee := { id := "1", name := "Z", home_region := "R", pay_rate := 10, pay_frequency := .Hourly }
                , gross := 37, taxes := 0, net := 37, details := Json.obj [] }]

/-- Witness for c10_duplicate_ids_allowed on a request with a duplicated
employee id. -/
theorem c10_duplicate_ids_allowed_witness :
    c10_result.results.length = c10_input.employees.length ∧
      c10_result.results = c10_input.employees.map (payEmployee c10_input.pay_items (fun _ => none) (fun _ => none)) :=
  c10_duplicate_ids_allowed c10_input (fun _ => none) (fun _ => none) c10_result
    (by have hfind : (List.find? (fun i => to_lowercase i.description == "hours")
            ([{ description := "hours", amount := 3 }, { description := "bonus", amount := 7 }] : List PayItem)) =
            some { description := "hours", amount := (3 : ℚ) } := by
          rw [List.find?_cons_of_pos _ (by decide)]
        have hfilter : (List.filter (fun i => to_lowercase i.description != "hours")
            ([{ description := "hours", amount := 3 }, { description := "bonus", amount := 7 }] : List PayItem)) =
            [{ description := "bonus", amount := (7 : ℚ) }] := by
          rw [List.filter_cons_of_neg (by decide), List.filter_cons_of_pos (by decide), List.filter_nil]
        simp +decide [run_payroll, payEmployee, c10_input, c10_result, hfind, hfilter]
        norm_num)

/-- Tax law parsed from the well-formed file contents in the c8 scenarios. -/
def c8_goodLaw : TaxLaw where
  region := "US-OK"
  version := "2025"
  rules := Json.obj []

/-- Parse function of the c8 scenarios: the contents good parse to
c8_goodLaw, everything else fails to parse. -/
def c8_parse : String → Except String TaxLaw :=
  fun s => if s = "good" then Except.ok c8_goodLaw else Except.error "invalid JSON"

/-- A regular json file whose read fails with an I/O error. -/
def c8_unreadable : DirEntry where
  is_file := true
  has_json_ext := true
  read := Except.error "permission denied"

/-- A regular json file that reads and parses successfully. -/
def c8_good : DirEntry where
  is_file := true
  has_json_ext := true
  read := Except.ok "good"

/-- A regular json file that reads successfully but fails to parse. -/
def c8_badfile : DirEntry where
  is_file := true
  has_json_ext := true
  read := Except.ok "broken"

/-- Claim C8 counterexample: a file whose contents cannot be read is not
skipped; the whole load aborts with the read error, so the law of the
remaining parseable file is not returned. -/
theorem c8_read_error_not_skipped :
    load_tax_laws_from_dir true [c8_unreadable, c8_good] c8_parse =
        Except.error "permission denied" ∧
      load_tax_laws_from_dir true [c8_good] c8_parse = Except.ok [c8_goodLaw] ∧
      (Except.error "permission denied" : Except String (List TaxLaw)) ≠
        Except.ok [c8_goodLaw] := by
  refine ⟨rfl, rfl, ?_⟩
  intro h
  exact Except.noConfusion h

/-- Claim C8 amended: a file whose contents parse as no TaxLaw is skipped
and loading continues, returning exactly what the directory without that
file yields; files whose contents cannot be read abort the whole load
instead. -/
theorem c8_parse_error_skipped (parse : String → Except String TaxLaw)
    (pre post : List DirEntry) (bad : DirEntry) (data err : String)
    (hfile : bad.is_file = true) (hext : bad.has_json_ext = true)
    (hread : bad.read = Except.ok data) (hparse : parse data = Except.error err) :
    load_tax_laws_from_dir true (pre ++ bad :: post) parse =
      load_tax_laws_from_dir true (pre ++ post) parse := by
  suffices h : ∀ (front : List DirEntry) (acc : List TaxLaw),
      load_loop parse (front ++ bad :: post) acc = load_loop parse (front ++ post) acc by
    simpa [load_tax_laws_from_dir] using h pre []
  intro front
  induction front with
  | nil =>
    intro acc
    simp [load_loop, hfile, hext, hread, hparse]
  | cons e es ih =>
    intro acc
    obtain ⟨fi, ex, rd⟩ := e
    cases fi with
    | false => simpa [load_loop] using ih acc
    | true =>
      cases ex with
      | false => simpa [load_loop] using ih acc
      | true =>
        cases rd with
        | error msg => simp [load_loop]
        | ok d =>
          cases hp : parse d with
          | ok law => simpa [load_loop, hp] using ih (law :: acc)
          | error m => simpa [load_loop, hp] using ih acc

/-- Witness for c8_parse_error_skipped: an unparseable file between none
and one good file is skipped and the good file's law is still loaded. -/
theorem c8_parse_error_skipped_witness :
    load_tax_laws_from_dir true ([] ++ c8_badfile :: [c8_good]) c8_parse =
      load_tax_laws_from_dir true ([] ++ [c8_good]) c8_parse :=
  c8_parse_error_skipped c8_parse [] [c8_good] c8_badfile "broken" "invalid JSON"
    rfl rfl rfl rfl

end Wage
